import Mathlib

/-!
Formal model of the ML-model-builder backend: a shallow embedding of
`ml-builder-backend/app.py`, `ml_models/preprocessing.py` and
`ml_models/classifiers.py`.

Conventions of the embedding:
* Python dicts holding per-session state become Lean structures; the mutable
  update of a session is explicit state passing.
* Fallible code (`raise ValueError`, HTTP 400 error returns) becomes
  `Except String`, carrying the message of the source.
* The external numeric primitives (scikit-learn `train_test_split`, `fit`,
  `predict`) are black boxes in the source's own architecture; they are
  abstracted as an oracle producing the held-out (true label, predicted
  label) pairs, while the metric aggregation performed on those pairs
  (`accuracy_score`, macro `precision_score` / `recall_score` / `f1_score`,
  `confusion_matrix` with `zero_division=0`) is modelled faithfully.
* Machine floats of the metrics are modelled as `ℚ`.
-/

deriving instance DecidableEq for Except

namespace MLBuilder

/-- Python `str.lower()` restricted to ASCII, character by character
(the model-type and method strings of the API are ASCII). -/
def strToLower (s : String) : String :=
  String.mk (s.toList.map Char.toLower)

/-- The JSON values the `hidden_layers` request field may carry, as
distinguished by the `isinstance` tests of `_parse_hidden_layers` in
`app.py`: a list of integers, a string, a single integer, or anything
else (the unsupported-format branch). -/
inductive HLValue where
  | list (xs : List Int)
  | str (s : String)
  | int (n : Int)
  | other
deriving DecidableEq

/-- The delimiters of the `re.split` pattern `[,;\s]+` used on a string
`hidden_layers` value: commas, semicolons, or whitespace. -/
def isDelim (c : Char) : Bool :=
  c = ',' || c = ';' || c.isWhitespace

/-- Maximal runs of non-delimiter characters, accumulator-based. -/
def splitTokensAux : List Char → List Char → List String
  | [], cur => [String.mk cur.reverse]
  | c :: rest, cur =>
    if isDelim c then String.mk cur.reverse :: splitTokensAux rest []
    else splitTokensAux rest (c :: cur)

/-- `[p for p in re.split(r"[,;\s]+", value.strip()) if p]`: split on any
mixture of commas, semicolons and whitespace and drop empty tokens (the
`strip()` of the source only removes whitespace, which the split pattern
covers as well, so it is absorbed by the empty-token filter). -/
def splitTokens (s : String) : List String :=
  (splitTokensAux s.toList []).filter (fun t => t ≠ "")

/-- Python `int(p)` on a token that contains no whitespace: an optional
sign followed by at least one decimal digit; anything else raises
`ValueError`, modelled as `none`. -/
def parseIntToken (s : String) : Option Int :=
  let sd : Int × List Char :=
    match s.toList with
    | '-' :: rest => (-1, rest)
    | '+' :: rest => (1, rest)
    | cs => (1, cs)
  if sd.2 ≠ [] && sd.2.all Char.isDigit then
    some (sd.1 * Int.ofNat (sd.2.foldl (fun a c => a * 10 + (c.toNat - 48)) 0))
  else none

/-- `[int(p) for p in parts]`: the comprehension raises (here: `none`) as
soon as one token fails to parse. -/
def mapIntTokens : List String → Option (List Int)
  | [] => some []
  | t :: ts =>
    match parseIntToken t, mapIntTokens ts with
    | some v, some vs => some (v :: vs)
    | _, _ => none

/-- `_parse_hidden_layers(value, num_layers_val, neurons_val)` from
`train_model` in `app.py`: an explicit `hidden_layers` value (list, string
or int) takes priority; else a `(num_layers, neurons)` pair of positive
integers is expanded to a uniform stack; else the default `(100,)`.
Errors carry the `ValueError` messages of the source. -/
def parse_hidden_layers (value : Option HLValue)
    (num_layers_val neurons_val : Option Int) : Except String (List Int) :=
  match value with
  | some (.list xs) =>
    if xs.any (fun x => x ≤ 0) then
      .error "All hidden layer sizes must be positive integers"
    else .ok xs
  | some (.str s) =>
    let parts := splitTokens s
    if parts = [] then .error "hidden_layers string empty"
    else
      match mapIntTokens parts with
      | none => .error "invalid literal for int"
      | some arr =>
        if arr.any (fun x => x ≤ 0) then
          .error "All hidden layer sizes must be positive integers"
        else .ok arr
  | some (.int n) =>
    if n ≤ 0 then .error "All hidden layer sizes must be positive integers"
    else .ok [n]
  | some .other =>
    .error "Unsupported hidden_layers format; use list, CSV string, or int"
  | none =>
    match num_layers_val, neurons_val with
    | some nl, some nn =>
      if nl ≤ 0 || nn ≤ 0 then
        .error "num_layers and neurons must be positive integers"
      else .ok (List.replicate nl.toNat nn)
    | _, _ => .ok [100]

/-- Python `a or b` on two optional integers, as in
`data.get("neurons") or data.get("nuearals")`: `None` and `0` are falsy,
so a present value of `0` falls through to `b`. -/
def pyOrInt (a b : Option Int) : Option Int :=
  match a with
  | some n => if n = 0 then b else some n
  | none => b

/-- The request fields of a `/api/train` call that the model-building code
reads (body of `train_model` in `app.py`). -/
structure TrainParams where
  test_size : ℚ := 1/5
  hidden_layers : Option HLValue := none
  neurons : Option Int := none
  nuearals : Option Int := none
  num_layers : Option Int := none
  learning_rate : ℚ := 1/1000
  max_iter : Int := 300
deriving DecidableEq

/-- `data.get("neurons") or data.get("nuearals")`: the commonly
misspelled key is accepted as a fallback for the canonical one. -/
def requestNeurons (p : TrainParams) : Option Int :=
  pyOrInt p.neurons p.nuearals

/-- The hidden-layer specification a `/api/train` request parses to,
combining the key extraction with `_parse_hidden_layers`. -/
def requestHiddenLayers (p : TrainParams) : Except String (List Int) :=
  parse_hidden_layers p.hidden_layers p.num_layers (requestNeurons p)

/-- A cell of a pandas DataFrame as the backend observes it: a numeric
value, a non-numeric (string) value, or a missing value (`NaN`/`None`,
what `isnull()` detects). -/
inductive Value where
  | num (q : ℚ)
  | str (s : String)
  | missing
deriving DecidableEq

/-- A column of the uploaded dataset: its name and whether its pandas
storage dtype is numeric (what `select_dtypes(include=[np.number])`
selects). -/
structure ColMeta where
  name : String
  numericDtype : Bool
deriving DecidableEq

/-- The uploaded tabular dataset: named, dtyped columns and rows of
cells aligned with the column list. -/
structure DataFrame where
  cols : List ColMeta
  rows : List (List Value)
deriving DecidableEq

def DataFrame.colNames (df : DataFrame) : List String :=
  df.cols.map ColMeta.name

/-- Index of the first element satisfying a predicate. -/
def idxOf? {α : Type} (p : α → Bool) : List α → Option Nat
  | [] => none
  | x :: xs => if p x then some 0 else (idxOf? p xs).map (· + 1)

/-- Position of a named column. -/
def DataFrame.colIdx (df : DataFrame) (n : String) : Option Nat :=
  idxOf? (fun c => c.name = n) df.cols

/-- `df[target]`: the series of one named column (empty if absent; the
backend only reads columns it has checked for). -/
def DataFrame.getCol (df : DataFrame) (n : String) : List Value :=
  match df.colIdx n with
  | some i => df.rows.map (fun r => r.getD i Value.missing)
  | none => []

/-- `df[names]`: column projection onto a list of names, keeping the
requested order. -/
def DataFrame.select (df : DataFrame) (names : List String) : DataFrame :=
  { cols := names.filterMap (fun n => df.cols.find? (fun c => c.name = n)),
    rows := df.rows.map (fun r =>
      names.filterMap (fun n => (df.colIdx n).map (fun i => r.getD i Value.missing))) }

/-- `PreprocessConfig` from `ml_models/preprocessing.py`. -/
structure PreprocessConfig where
  method : String
  target_column : String
  feature_columns : List String
  numeric_columns : List String
  categorical_columns : List String
deriving DecidableEq

/-- `PreprocessorFactory.analyze_dataframe`: fails if the target column is
absent; otherwise features are all non-target columns in original order,
numeric ones are those of numeric storage dtype, and the rest are
categorical. -/
def analyze_dataframe (df : DataFrame) (target_column : String) :
    Except String PreprocessConfig :=
  if target_column ∈ df.colNames then
    let feature_columns := df.colNames.filter (fun c => c ≠ target_column)
    let numeric_columns :=
      ((df.select feature_columns).cols.filter (fun c => c.numericDtype)).map ColMeta.name
    let categorical_columns := feature_columns.filter (fun c => c ∉ numeric_columns)
    .ok { method := "", target_column := target_column,
          feature_columns := feature_columns,
          numeric_columns := numeric_columns,
          categorical_columns := categorical_columns }
  else
    .error ("Target column '" ++ target_column ++ "' not found in dataset.")

/-- The steps of the numeric-feature sklearn `Pipeline` built by
`PreprocessorFactory.build`. -/
inductive NumStep where
  | imputerMedian
  | scalerStandard
deriving DecidableEq

/-- The steps of the categorical-feature sklearn `Pipeline`. -/
inductive CatStep where
  | imputerMostFrequent
  | encoderOneHot
deriving DecidableEq

/-- One entry of the `ColumnTransformer`: a pipeline applied to a block of
named columns. -/
inductive Transformer where
  | num (steps : List NumStep) (cols : List String)
  | cat (steps : List CatStep) (cols : List String)
deriving DecidableEq

/-- The fitted-to-be preprocessor object returned by
`PreprocessorFactory.build`. -/
structure ColumnTransformer where
  transformers : List Transformer
deriving DecidableEq

/-- `PreprocessorFactory.build(config, method)`: lowercases the method,
rejects anything other than `normalization` / `onehot`, assembles the
numeric and categorical pipelines, and fails when no feature block is
usable. -/
def build (config : PreprocessConfig) (method : String) :
    Except String (ColumnTransformer × PreprocessConfig) :=
  let m := strToLower method
  if m ≠ "normalization" && m ≠ "onehot" then
    .error "method must be 'normalization' or 'onehot'"
  else
    let config2 := { config with method := m }
    let numPipeline : List NumStep :=
      if m = "normalization" then [.imputerMedian, .scalerStandard]
      else [.imputerMedian]
    let transformers :=
      (if config2.numeric_columns ≠ [] then
        [Transformer.num numPipeline config2.numeric_columns] else []) ++
      (if config2.categorical_columns ≠ [] then
        [Transformer.cat [.imputerMostFrequent, .encoderOneHot] config2.categorical_columns]
       else [])
    if transformers = [] then
      .error "No usable features found (no numeric or categorical columns)."
    else
      .ok ({ transformers := transformers }, config2)

/-- True positives of class `c` over held-out (true, predicted) pairs. -/
def tpC (ps : List (Nat × Nat)) (c : Nat) : Nat :=
  ps.countP (fun q => q.1 = c && q.2 = c)

/-- Number of test rows whose true class is `c` (the support of `c`). -/
def supportC (ps : List (Nat × Nat)) (c : Nat) : Nat :=
  ps.countP (fun q => q.1 = c)

/-- Number of test rows predicted as class `c`. -/
def predictedC (ps : List (Nat × Nat)) (c : Nat) : Nat :=
  ps.countP (fun q => q.2 = c)

/-- The label set sklearn metrics average over: the distinct classes
occurring in `y_test` or `y_pred`. -/
def classLabels (ps : List (Nat × Nat)) : Finset Nat :=
  (ps.map Prod.fst ++ ps.map Prod.snd).toFinset

/-- Per-class precision with `zero_division=0`: zero when `c` is never
predicted. -/
def precC (ps : List (Nat × Nat)) (c : Nat) : ℚ :=
  if predictedC ps c = 0 then 0 else (tpC ps c : ℚ) / (predictedC ps c : ℚ)

/-- Per-class recall with `zero_division=0`: zero when `c` has no support. -/
def recC (ps : List (Nat × Nat)) (c : Nat) : ℚ :=
  if supportC ps c = 0 then 0 else (tpC ps c : ℚ) / (supportC ps c : ℚ)

/-- Per-class F1 (harmonic mean of precision and recall), zero when both
vanish, as sklearn computes it with `zero_division=0`. -/
def f1C (ps : List (Nat × Nat)) (c : Nat) : ℚ :=
  let p := precC ps c
  let r := recC ps c
  if p + r = 0 then 0 else 2 * p * r / (p + r)

/-- `accuracy_score(y_test, y_pred)`: fraction of correct predictions. -/
def accuracy_score (ps : List (Nat × Nat)) : ℚ :=
  (ps.countP (fun q => q.1 = q.2) : ℚ) / (ps.length : ℚ)

/-- `precision_score(..., average="macro", zero_division=0)`: the
unweighted mean of per-class precision over the distinct classes. -/
def precision_score (ps : List (Nat × Nat)) : ℚ :=
  ((classLabels ps).sum fun c => precC ps c) / ((classLabels ps).card : ℚ)

/-- `recall_score(..., average="macro", zero_division=0)`. -/
def recall_score (ps : List (Nat × Nat)) : ℚ :=
  ((classLabels ps).sum fun c => recC ps c) / ((classLabels ps).card : ℚ)

/-- `f1_score(..., average="macro", zero_division=0)`. -/
def f1_score (ps : List (Nat × Nat)) : ℚ :=
  ((classLabels ps).sum fun c => f1C ps c) / ((classLabels ps).card : ℚ)

/-- Insertion into an ascending list of labels. -/
def insertLabel (x : Nat) : List Nat → List Nat
  | [] => [x]
  | y :: ys => if x ≤ y then x :: y :: ys else y :: insertLabel x ys

/-- The distinct observed classes in ascending label order, the row and
column index of sklearn's `confusion_matrix`. -/
def sortedLabels (ps : List (Nat × Nat)) : List Nat :=
  ((ps.map Prod.fst ++ ps.map Prod.snd).dedup).foldr insertLabel []

/-- `confusion_matrix(y_test, y_pred)`: rows are true classes, columns are
predicted classes, both ordered by ascending label. -/
def confusion_matrix (ps : List (Nat × Nat)) : List (List Nat) :=
  (sortedLabels ps).map (fun t =>
    (sortedLabels ps).map (fun p => ps.countP (fun q => q.1 = t && q.2 = p)))

/-- The `TrainResult` dataclass of `ml_models/classifiers.py`. -/
structure TrainResult where
  model_type : String
  accuracy : ℚ
  precision : ℚ
  «recall» : ℚ
  f1 : ℚ
  confusion_matrix : List (List Nat)
  test_size : ℚ
deriving DecidableEq

/-- The estimator configurations produced by the `_build_estimator`
methods: a `Perceptron`, a `DecisionTreeClassifier`, or an
`MLPClassifier` carrying the parsed hidden-layer sizes, learning rate
and iteration cap. -/
inductive Estimator where
  | perceptron
  | decision_tree
  | mlp (hidden_layer_sizes : List Int) (learning_rate_init : ℚ) (max_iter : Int)
deriving DecidableEq

/-- The hidden-layer sizes an estimator configuration carries (only the
MLP has them). -/
def Estimator.hiddenSizes : Estimator → Option (List Int)
  | .mlp hs _ _ => some hs
  | _ => none

/-- The `Pipeline(steps=[("preprocess", preprocessor), ("clf", estimator)])`
object assembled by `_build_pipeline`. -/
structure Pipeline where
  preprocess : ColumnTransformer
  clf : Estimator
deriving DecidableEq

/-- The metric block of `TrainResult` as computed from the held-out pairs
by `train_and_evaluate`. -/
def evalResult (model_type : String) (ps : List (Nat × Nat)) (test_size : ℚ) :
    TrainResult :=
  { model_type := model_type
    accuracy := accuracy_score ps
    precision := precision_score ps
    «recall» := recall_score ps
    f1 := f1_score ps
    confusion_matrix := MLBuilder.confusion_matrix ps
    test_size := test_size }

/-- `BaseClassifierModel.train_and_evaluate`: the black-box
`train_test_split` / `fit` / `predict` sequence is abstracted as an oracle
that either fails (e.g. stratification impossible) or yields the held-out
(true label, predicted label) pairs; the metric aggregation on those pairs
follows the sklearn calls of the source verbatim. -/
def train_and_evaluate (model_type : String) (preprocessor : ColumnTransformer)
    (estimator : Estimator) (test_size : ℚ)
    (oracle : Except String (List (Nat × Nat))) :
    Except String (Pipeline × TrainResult) :=
  match oracle with
  | .error e => .error e
  | .ok ps =>
    .ok ({ preprocess := preprocessor, clf := estimator },
         evalResult model_type ps test_size)

/-- One stored entry of the session's `models` dict:
`{"pipeline": ..., "metrics": ...}`. -/
structure StoredModel where
  pipeline : Pipeline
  metrics : TrainResult
deriving DecidableEq

/-- The per-session state dict created by `upload_dataset`. -/
structure Session where
  dataframe : DataFrame
  preprocess_config : Option PreprocessConfig
  preprocessor : Option ColumnTransformer
  X : Option DataFrame
  y : Option (List Value)
  models : List (String × StoredModel)
deriving DecidableEq

/-- Lookup in a string-keyed association list (a Python dict read). -/
def lookupA {α : Type} : List (String × α) → String → Option α
  | [], _ => none
  | e :: m, k => if e.1 = k then some e.2 else lookupA m k

/-- Insert-or-replace in a string-keyed association list (a Python dict
write, keeping insertion order). -/
def insertA {α : Type} : List (String × α) → String → α → List (String × α)
  | [], k, v => [(k, v)]
  | e :: m, k, v => if e.1 = k then (k, v) :: m else e :: insertA m k v

/-- The fresh session minted by `upload_dataset` for a parsed dataset. -/
def upload_dataset (df : DataFrame) : Session :=
  { dataframe := df, preprocess_config := none, preprocessor := none,
    X := none, y := none, models := [] }

/-- The summary object returned by a successful `/api/preprocess` call;
the dropped-row count is present only when rows were dropped (the source
adds the key under `if dropped_rows:`). -/
structure PreprocessSummary where
  method : String
  target_column : String
  feature_columns : List String
  numeric_columns : List String
  categorical_columns : List String
  dropped_rows_with_missing_target : Option Nat
deriving DecidableEq

/-- `xs.loc[mask]`: keep the entries whose aligned mask bit is true. -/
def maskFilter {α : Type} (xs : List α) (mask : List Bool) : List α :=
  ((xs.zip mask).filter (fun e => e.2)).map Prod.fst

/-- `preprocess_data` from `app.py` (the part after request unmarshalling):
analyze the schema, build the preprocessor, select `X` and `y`, drop the
rows whose target is missing from `X`, `y` and the stored dataframe alike,
and store config, preprocessor, `X` and `y` back into the session. -/
def preprocess_data (sess : Session) (method target_column : String) :
    Except String (Session × PreprocessSummary) :=
  match analyze_dataframe sess.dataframe target_column with
  | .error e => .error e
  | .ok config0 =>
    match build config0 method with
    | .error e => .error e
    | .ok (preprocessor, config) =>
      let df := sess.dataframe
      let X := df.select config.feature_columns
      let y := df.getCol target_column
      let n_missing := y.countP (fun v => decide (v = Value.missing))
      let mask := y.map (fun v => !decide (v = Value.missing))
      if n_missing > 0 then
        .ok ({ sess with
                 dataframe := { cols := df.cols, rows := maskFilter df.rows mask },
                 preprocess_config := some config,
                 preprocessor := some preprocessor,
                 X := some { cols := X.cols, rows := maskFilter X.rows mask },
                 y := some (maskFilter y mask) },
             { method := config.method,
               target_column := config.target_column,
               feature_columns := config.feature_columns,
               numeric_columns := config.numeric_columns,
               categorical_columns := config.categorical_columns,
               dropped_rows_with_missing_target := some n_missing })
      else
        .ok ({ sess with
                 dataframe := df,
                 preprocess_config := some config,
                 preprocessor := some preprocessor,
                 X := some X,
                 y := some y },
             { method := config.method,
               target_column := config.target_column,
               feature_columns := config.feature_columns,
               numeric_columns := config.numeric_columns,
               categorical_columns := config.categorical_columns,
               dropped_rows_with_missing_target := none })

/-- `train_model` from `app.py` (after request unmarshalling): lowercase
the requested model type, require a configured preprocessor, build the
estimator (parsing MLP hidden layers first), run `train_and_evaluate`,
and store the pipeline and metrics in the session keyed by the lowercased
requested type string. -/
def train_model (sess : Session) (model_type_raw : String) (p : TrainParams)
    (oracle : Except String (List (Nat × Nat))) :
    Except String (Session × TrainResult) :=
  let model_type := strToLower model_type_raw
  match sess.preprocessor with
  | none => .error "Preprocessing not configured yet."
  | some preprocessor =>
    let run : String → Estimator → Except String (Session × TrainResult) :=
      fun mt est =>
        match train_and_evaluate mt preprocessor est p.test_size oracle with
        | .error e => .error e
        | .ok (pipeline, result) =>
          .ok ({ sess with
                   models := insertA sess.models model_type
                     { pipeline := pipeline, metrics := result } },
               result)
    if model_type = "perceptron" then run "perceptron" .perceptron
    else if model_type = "decision_tree" then run "decision_tree" .decision_tree
    else if model_type = "mlp" ∨ model_type = "multilayer_perceptron" ∨
        model_type = "backpropagation" then
      match requestHiddenLayers p with
      | .error e => .error ("Invalid hidden_layers: " ++ e)
      | .ok hidden_layers =>
        run "multilayer_perceptron"
          (.mlp hidden_layers p.learning_rate p.max_iter)
    else .error "Unknown model_type"

/-- The session lookup done by `/api/confusion_matrix`: the stored entry
for the lowercased requested model type, or the no-trained-model error. -/
def get_confusion_matrix (sess : Session) (model_type_raw : String) :
    Except String StoredModel :=
  match lookupA sess.models (strToLower model_type_raw) with
  | none => .error "No trained model of this type for this session."
  | some info => .ok info

/-- `safe_name = "".join(c for c in model_name if c.isalnum() or c in ("_", "-"))`
(alphanumeric here is ASCII). -/
def sanitizeName (model_name : String) : String :=
  String.mk (model_name.toList.filter (fun c => c.isAlphanum || c = '_' || c = '-'))

/-- POSIX `os.path.join` on two components: an absolute second component
replaces the first. -/
def os_path_join (a b : String) : String :=
  if b.toList.head? = some '/' then b else a ++ "/" ++ b

/-- `save_model` from `app.py` (after request unmarshalling): look up the
trained entry for the lowercased model type, sanitize the caller-supplied
name, and produce the artifact path. -/
def save_model (sess : Session) (model_type_raw model_name : String) :
    Except String String :=
  match lookupA sess.models (strToLower model_type_raw) with
  | none => .error "No trained model of this type for this session."
  | some _ => .ok (os_path_join "saved_models" (sanitizeName model_name ++ ".joblib"))

/-- What a durable-tier read of a session key can yield: bytes that
unpickle to a session, or bytes whose deserialization fails. -/
inductive RedisEntry where
  | ok (sess : Session)
  | corrupt
deriving DecidableEq

/-- The two-tier session store of `app.py`: the in-process `SESSIONS`
dict and the optional Redis key-value tier. -/
structure SessionStore where
  sessions : List (String × Session)
  use_redis : Bool
  redis : List (String × RedisEntry)

/-- `get_session`: local tier first; on a miss, read `session:<id>` from
the durable tier, repopulate the local tier on success, and treat corrupt
entries as missing. The returned store reflects the cache repopulation. -/
def get_session (st : SessionStore) (session_id : String) :
    Except String (Session × SessionStore) :=
  match lookupA st.sessions session_id with
  | some sess => .ok (sess, st)
  | none =>
    if st.use_redis then
      match lookupA st.redis ("session:" ++ session_id) with
      | some (.ok sess) =>
        .ok (sess, { st with sessions := insertA st.sessions session_id sess })
      | some .corrupt => .error "Invalid session_id. Upload a dataset first."
      | none => .error "Invalid session_id. Upload a dataset first."
    else .error "Invalid session_id. Upload a dataset first."

/-- The session states reachable through the workflow: a fresh upload
followed by any sequence of successful preprocessing and training calls
(failing calls leave the functional state unchanged). -/
inductive Reachable : Session → Prop where
  | upload (df : DataFrame) : Reachable (upload_dataset df)
  | preprocess {s s2 : Session} {m t : String} {sm : PreprocessSummary} :
      Reachable s → preprocess_data s m t = .ok (s2, sm) → Reachable s2
  | train {s s2 : Session} {mt : String} {p : TrainParams}
      {o : Except String (List (Nat × Nat))} {r : TrainResult} :
      Reachable s → train_model s mt p o = .ok (s2, r) → Reachable s2

/-- The session invariant of the spec: config, preprocessor, `X` and `y`
are all absent or all present, `X` and `y` agree on row count, and `X`
carries exactly the configured feature columns. -/
def consistent (s : Session) : Prop :=
  (s.preprocess_config = none ∧ s.preprocessor = none ∧ s.X = none ∧ s.y = none) ∨
  (∃ cfg pre X y, s.preprocess_config = some cfg ∧ s.preprocessor = some pre ∧
    s.X = some X ∧ s.y = some y ∧ X.rows.length = y.length ∧
    X.cols.map ColMeta.name = cfg.feature_columns)

/-- The model-type strings `train_model` routes to the MLP branch. -/
def isMLPAlias (s : String) : Prop :=
  strToLower s = "mlp" ∨ strToLower s = "multilayer_perceptron" ∨
  strToLower s = "backpropagation"

/-- A hidden-layer specification containing a non-positive size or an
unparseable string, case by case over the accepted input shapes; for the
`(num_layers, neurons)` pair the effective neuron count is the one left
after the `neurons`-or-`nuearals` key coalescing. -/
def badHiddenSpec (p : TrainParams) : Prop :=
  (∃ xs, p.hidden_layers = some (.list xs) ∧ ∃ x ∈ xs, x ≤ 0) ∨
  (∃ s, p.hidden_layers = some (.str s) ∧
    (splitTokens s = [] ∨
     (∃ t ∈ splitTokens s, parseIntToken t = none) ∨
     (∃ t ∈ splitTokens s, ∃ v, parseIntToken t = some v ∧ v ≤ 0))) ∨
  (∃ n, p.hidden_layers = some (.int n) ∧ n ≤ 0) ∨
  (p.hidden_layers = none ∧
    ∃ nl nn, p.num_layers = some nl ∧ requestNeurons p = some nn ∧
    (nl ≤ 0 ∨ nn ≤ 0))

/-- A three-column dataset fixture: one numeric feature, one categorical
feature, one target column with a single missing entry. -/
def dfEx : DataFrame :=
  { cols := [⟨"f1", true⟩, ⟨"f2", false⟩, ⟨"label", false⟩],
    rows := [[.num 1, .str "a", .str "yes"],
             [.num 2, .str "b", .missing],
             [.num 3, .str "c", .str "no"]] }

/-- A schema-analysis output fixture with one numeric feature column. -/
def cfgEx : PreprocessConfig :=
  { method := "", target_column := "label", feature_columns := ["f1", "f2"],
    numeric_columns := ["f1"], categorical_columns := ["f2"] }

/-- A preprocessor fixture. -/
def preEx : ColumnTransformer :=
  { transformers := [.num [.imputerMedian] ["f1"]] }

/-- A session fixture with a configured preprocessor and no trained
models. -/
def sessEx : Session :=
  { dataframe := dfEx, preprocess_config := some cfgEx,
    preprocessor := some preEx, X := none, y := none, models := [] }

/-- A metrics fixture (integer-valued). -/
def resEx : TrainResult :=
  { model_type := "multilayer_perceptron", accuracy := 1, precision := 1,
    «recall» := 1, f1 := 1, confusion_matrix := [[2]], test_size := 0 }

/-- A session fixture holding one trained model under the key `mlp`. -/
def sessTrained : Session :=
  { dataframe := dfEx, preprocess_config := some cfgEx,
    preprocessor := some preEx, X := none, y := none,
    models := [("mlp", { pipeline := { preprocess := preEx, clf := .perceptron },
                         metrics := resEx })] }

/-- Held-out pairs fixture: three classes of nonzero support, class 2
never predicted, no prediction correct. -/
def psEx : List (Nat × Nat) := [(0, 1), (1, 0), (2, 0)]

/-- Held-out pairs fixture: three classes of nonzero support, class 2
never predicted, some predictions correct. -/
def psEx2 : List (Nat × Nat) := [(0, 0), (1, 1), (2, 0), (2, 1)]

/-- Train-request fixture whose hidden-layer specification contains `0`
as the explicit single-integer form. -/
def pBad : TrainParams :=
  { test_size := 1/5, hidden_layers := some (.int 0), neurons := none,
    nuearals := none, num_layers := none, learning_rate := 1/1000,
    max_iter := 300 }

/-- Train-request fixture carrying the pair `num_layers=3, neurons=0`
with no misspelled-key fallback. -/
def pZeroNeurons : TrainParams :=
  { test_size := 1/5, hidden_layers := none, neurons := some 0,
    nuearals := none, num_layers := some 3, learning_rate := 1/1000,
    max_iter := 300 }

/-- Train-request fixture with a valid single hidden layer of width 8. -/
def pW : TrainParams :=
  { test_size := 1/5, hidden_layers := some (.int 8), neurons := none,
    nuearals := none, num_layers := none, learning_rate := 1/1000,
    max_iter := 300 }

/-- Train-request fixture with a valid two-layer list specification. -/
def qW : TrainParams :=
  { test_size := 1/5, hidden_layers := some (.list [4, 2]), neurons := none,
    nuearals := none, num_layers := none, learning_rate := 1/1000,
    max_iter := 300 }

/-- A two-tier store fixture: one local session, one good durable entry,
one corrupt durable entry. -/
def stEx : SessionStore :=
  { sessions := [("local-id", sessEx)],
    use_redis := true,
    redis := [("session:remote-id", .ok sessTrained),
              ("session:corrupt-id", .corrupt)] }

/-- Number of rows of a dataframe whose entry in the named column is
missing. -/
def missingCount (df : DataFrame) (t : String) : Nat :=
  (df.getCol t).countP (fun v => decide (v = Value.missing))

/-- The stored-model entry a successful MLP training call inserts: the
assembled pipeline and the metrics computed from the held-out pairs. -/
def mlpEntry (pre : ColumnTransformer) (hl : List Int) (p : TrainParams)
    (ps : List (Nat × Nat)) : StoredModel :=
  { pipeline := { preprocess := pre, clf := .mlp hl p.learning_rate p.max_iter },
    metrics := evalResult "multilayer_perceptron" ps p.test_size }

/-! ### General helper lemmas -/

theorem exists_ok_of_isOk {ε α : Type} {x : Except ε α} (h : x.isOk = true) :
    ∃ a, x = .ok a := by
  cases x with
  | error e => simp [Except.isOk, Except.toBool] at h
  | ok a => exact ⟨a, rfl⟩

theorem lookupA_insertA_self {α : Type} (m : List (String × α)) (k : String) (v : α) :
    lookupA (insertA m k v) k = some v := by
  induction m with
  | nil => simp [insertA, lookupA]
  | cons e m ih =>
    by_cases h : e.1 = k
    · simp [insertA, lookupA, h]
    · simp [insertA, lookupA, h, ih]

theorem lookupA_insertA_ne {α : Type} (m : List (String × α)) (k k2 : String) (v : α)
    (h : k2 ≠ k) : lookupA (insertA m k v) k2 = lookupA m k2 := by
  induction m with
  | nil => simp [insertA, lookupA, Ne.symm h]
  | cons e m ih =>
    by_cases he : e.1 = k
    · simp [insertA, lookupA, he, Ne.symm h]
    · simp [insertA, lookupA, he, ih]

theorem maskFilter_nil_right {α : Type} (xs : List α) : maskFilter xs [] = [] := by
  simp [maskFilter]

theorem maskFilter_cons {α : Type} (x : α) (xs : List α) (b : Bool) (m : List Bool) :
    maskFilter (x :: xs) (b :: m) =
      if b then x :: maskFilter xs m else maskFilter xs m := by
  cases b <;> simp [maskFilter, List.filter_cons]

theorem maskFilter_length_congr {α β : Type} (xs : List α) (ys : List β)
    (mask : List Bool) (h : xs.length = ys.length) :
    (maskFilter xs mask).length = (maskFilter ys mask).length := by
  induction xs generalizing ys mask with
  | nil =>
    have hy : ys = [] := List.length_eq_zero.mp h.symm
    subst hy
    rfl
  | cons x xs ih =>
    cases ys with
    | nil => simp at h
    | cons y ys =>
      cases mask with
      | nil => simp [maskFilter_nil_right]
      | cons b m =>
        have h2 : xs.length = ys.length := by simpa using h
        cases b <;> simp [maskFilter_cons, ih _ _ h2]

theorem maskFilter_map {α β : Type} (f : α → β) (xs : List α) (mask : List Bool) :
    maskFilter (xs.map f) mask = (maskFilter xs mask).map f := by
  induction xs generalizing mask with
  | nil => rfl
  | cons x xs ih =>
    cases mask with
    | nil => simp [maskFilter_nil_right]
    | cons b m => cases b <;> simp [maskFilter_cons, ih]

theorem maskFilter_not_length {α : Type} (p : α → Bool) (xs : List α) :
    (maskFilter xs (xs.map (fun x => !p x))).length = xs.length - xs.countP p := by
  induction xs with
  | nil => rfl
  | cons x xs ih =>
    have hc := List.countP_le_length (p := p) (l := xs)
    cases hp : p x <;>
      (simp [maskFilter_cons, hp, List.countP_cons, ih]; try omega)

theorem countP_maskFilter_not {α : Type} (p : α → Bool) (xs : List α) :
    (maskFilter xs (xs.map (fun x => !p x))).countP p = 0 := by
  induction xs with
  | nil => rfl
  | cons x xs ih =>
    cases hp : p x <;> simp [maskFilter_cons, hp, List.countP_cons, ih]

theorem maskFilter_all_true {α : Type} (xs : List α) (mask : List Bool)
    (hlen : xs.length = mask.length) (htrue : ∀ b ∈ mask, b = true) :
    maskFilter xs mask = xs := by
  induction xs generalizing mask with
  | nil => rfl
  | cons x xs ih =>
    cases mask with
    | nil => simp at hlen
    | cons b m =>
      have hb : b = true := htrue b (by simp)
      subst hb
      simp [maskFilter_cons]
      exact ih m (by simpa using hlen) (fun b hb => htrue b (by simp [hb]))

theorem idxOf?_isSome {α : Type} {p : α → Bool} {l : List α} {x : α}
    (hx : x ∈ l) (hp : p x = true) : ∃ i, idxOf? p l = some i := by
  induction l with
  | nil => cases hx
  | cons a l ih =>
    cases ha : p a with
    | true => exact ⟨0, by simp [idxOf?, ha]⟩
    | false =>
      rcases List.mem_cons.mp hx with rfl | hx2
      · rw [hp] at ha; cases ha
      · obtain ⟨i, hi⟩ := ih hx2
        exact ⟨i + 1, by simp [idxOf?, ha, hi]⟩

/-- C1: hidden-layer parsing accepts, in priority order, an explicit
specification (list of integers, delimiter-separated string on commas /
semicolons / whitespace with leading and trailing separators tolerated,
or a single integer), then the `(num_layers, neurons)` pair expanded to a
uniform stack, then the default `(100,)`; `"64,32"`, `[64,32]` and
`"64 32"` all parse to `(64, 32)`, `num_layers=3, neurons=32` parses to
`(32, 32, 32)`, no specification parses to `(100,)`, and the misspelled
key `nuearals` is accepted as a synonym for `neurons`. -/
theorem C1_hidden_layer_parsing :
    parse_hidden_layers (some (.str "64,32")) none none = .ok [64, 32] ∧
    parse_hidden_layers (some (.list [64, 32])) none none = .ok [64, 32] ∧
    parse_hidden_layers (some (.str "64 32")) none none = .ok [64, 32] ∧
    parse_hidden_layers (some (.str " ;64 ,; 32, ")) none none = .ok [64, 32] ∧
    parse_hidden_layers (some (.int 64)) none none = .ok [64] ∧
    parse_hidden_layers (some (.str "64,32")) (some 5) (some 7) = .ok [64, 32] ∧
    parse_hidden_layers (some (.list [64, 32])) (some 5) (some 7) = .ok [64, 32] ∧
    parse_hidden_layers (some (.int 64)) (some 5) (some 7) = .ok [64] ∧
    parse_hidden_layers none (some 3) (some 32) = .ok [32, 32, 32] ∧
    parse_hidden_layers none none none = .ok [100] ∧
    parse_hidden_layers none (some 3) none = .ok [100] ∧
    parse_hidden_layers none none (some 32) = .ok [100] ∧
    requestHiddenLayers { hidden_layers := none, num_layers := some 3, neurons := none, nuearals := some 32 } = .ok [32, 32, 32] ∧
    requestHiddenLayers { hidden_layers := none, num_layers := some 3, neurons := some 32, nuearals := none } = .ok [32, 32, 32] := by
  decide

theorem find_name_of_mem {df : DataFrame} {n : String} (h : n ∈ df.colNames) :
    ∃ c, df.cols.find? (fun c => c.name = n) = some c ∧ c.name = n := by
  obtain ⟨c, hc, hcn⟩ := List.mem_map.mp h
  have hsome : (df.cols.find? (fun c => c.name = n)).isSome := by
    rw [List.find?_isSome]
    exact ⟨c, hc, by simp [hcn]⟩
  obtain ⟨c2, hc2⟩ := Option.isSome_iff_exists.mp hsome
  refine ⟨c2, hc2, ?_⟩
  simpa using List.find?_some hc2

theorem select_cols_names (df : DataFrame) (names : List String)
    (h : ∀ n ∈ names, n ∈ df.colNames) :
    (df.select names).cols.map ColMeta.name = names := by
  induction names with
  | nil => rfl
  | cons n ns ih =>
    obtain ⟨c, hc, hcn⟩ := find_name_of_mem (h n (List.mem_cons_self n ns))
    have ih2 := ih (fun m hm => h m (List.mem_cons_of_mem n hm))
    simp only [DataFrame.select] at ih2 ⊢
    rw [List.filterMap_cons, hc]
    simp [hcn, ih2]

theorem mem_select_cols {df : DataFrame} {names : List String} {col : ColMeta}
    (h : col ∈ (df.select names).cols) :
    ∃ n ∈ names, df.cols.find? (fun c => c.name = n) = some col := by
  simp only [DataFrame.select] at h
  exact List.mem_filterMap.mp h

theorem analyze_ok {df : DataFrame} {t : String} {cfg : PreprocessConfig}
    (h : analyze_dataframe df t = .ok cfg) :
    t ∈ df.colNames ∧ cfg.method = "" ∧ cfg.target_column = t ∧
    cfg.feature_columns = df.colNames.filter (fun c => c ≠ t) ∧
    cfg.numeric_columns =
      ((df.select (df.colNames.filter (fun c => c ≠ t))).cols.filter
        (fun c => c.numericDtype)).map ColMeta.name ∧
    cfg.categorical_columns =
      (df.colNames.filter (fun c => c ≠ t)).filter
        (fun c => c ∉ cfg.numeric_columns) := by
  by_cases ht : t ∈ df.colNames
  · simp only [analyze_dataframe, if_pos ht] at h
    injection h with h2
    subst h2
    exact ⟨ht, rfl, rfl, rfl, rfl, rfl⟩
  · simp only [analyze_dataframe, if_neg ht] at h
    exact Except.noConfusion h

/-- C6: schema analysis fails with the invalid-target error exactly when
the named column is absent; otherwise the feature columns are all
non-target columns in original order, numeric columns are those whose
storage dtype is numeric, categorical columns are the rest, and the two
partition the feature columns disjointly and exhaustively. -/
theorem C6_schema_analysis (df : DataFrame) (target : String) :
    (target ∉ df.colNames →
      analyze_dataframe df target =
        .error ("Target column '" ++ target ++ "' not found in dataset.")) ∧
    (target ∈ df.colNames → (analyze_dataframe df target).isOk = true) ∧
    (∀ cfg, analyze_dataframe df target = .ok cfg →
      cfg.feature_columns = df.colNames.filter (fun c => c ≠ target) ∧
      (∀ c, c ∈ cfg.numeric_columns → c ∈ cfg.feature_columns) ∧
      (∀ c, c ∈ cfg.categorical_columns → c ∈ cfg.feature_columns) ∧
      (∀ c, c ∈ cfg.feature_columns →
        c ∈ cfg.numeric_columns ∨ c ∈ cfg.categorical_columns) ∧
      (∀ c, ¬ (c ∈ cfg.numeric_columns ∧ c ∈ cfg.categorical_columns)) ∧
      (∀ c, c ∈ cfg.numeric_columns →
        ∃ col, df.cols.find? (fun cc => cc.name = c) = some col ∧
          col.numericDtype = true) ∧
      (∀ col, col ∈ (df.select cfg.feature_columns).cols →
        col.numericDtype = true → col.name ∈ cfg.numeric_columns)) := by
  refine ⟨?_, ?_, ?_⟩
  · intro ht
    unfold analyze_dataframe
    rw [if_neg ht]
  · intro ht
    unfold analyze_dataframe
    rw [if_pos ht]
    rfl
  · intro cfg h
    obtain ⟨ht, hm, htc, hfeat, hnum, hcat⟩ := analyze_ok h
    have hnum_sub : ∀ c, c ∈ cfg.numeric_columns → c ∈ cfg.feature_columns := by
      intro c hc
      rw [hnum] at hc
      obtain ⟨col, hcol, hname⟩ := List.mem_map.mp hc
      obtain ⟨hcol2, hdt⟩ := List.mem_filter.mp hcol
      obtain ⟨n, hn, hfind⟩ := mem_select_cols hcol2
      have hcn : col.name = n := by simpa using List.find?_some hfind
      rw [hfeat, ← hname, hcn]
      exact hn
    refine ⟨hfeat, hnum_sub, ?_, ?_, ?_, ?_, ?_⟩
    · intro c hc
      rw [hcat] at hc
      rw [hfeat]
      exact (List.mem_filter.mp hc).1
    · intro c hc
      by_cases hn : c ∈ cfg.numeric_columns
      · exact Or.inl hn
      · refine Or.inr ?_
        rw [hcat]
        rw [hfeat] at hc
        exact List.mem_filter.mpr ⟨hc, by simpa using hn⟩
    · rintro c ⟨h1, h2⟩
      rw [hcat] at h2
      have := (List.mem_filter.mp h2).2
      simp at this
      exact this h1
    · intro c hc
      rw [hnum] at hc
      obtain ⟨col, hcol, hname⟩ := List.mem_map.mp hc
      obtain ⟨hcol2, hdt⟩ := List.mem_filter.mp hcol
      obtain ⟨n, hn, hfind⟩ := mem_select_cols hcol2
      have hcn : col.name = n := by simpa using List.find?_some hfind
      refine ⟨col, ?_, by simpa using hdt⟩
      rw [← hname, hcn]
      exact hfind
    · intro col hcol hdt
      rw [hfeat] at hcol
      rw [hnum]
      exact List.mem_map.mpr ⟨col, List.mem_filter.mpr ⟨hcol, by simpa using hdt⟩, rfl⟩

/-- C6 witness: the schema-analysis theorem applied to the concrete
dataset fixture and target `label`. -/
theorem C6_witness :
    cfgEx.feature_columns = dfEx.colNames.filter (fun c => c ≠ "label") :=
  (((C6_schema_analysis dfEx "label").2.2) cfgEx (by decide)).1

/-- C7 counterexample: `build` accepts the method string `"ONEHOT"` even
though it is not in {normalization, onehot}; the membership test of the
source applies to the lowercased method, so the claim as stated fails. -/
theorem C7_counterexample :
    ¬ ("ONEHOT" = "normalization" ∨ "ONEHOT" = "onehot") ∧
    (build cfgEx "ONEHOT").isOk = true := by
  decide

/-- C7 (amended): building the preprocessor fails with the invalid-method
error exactly when the lowercased method is neither `normalization` nor
`onehot`; for a valid method it fails with the no-usable-features error
exactly when both the numeric and the categorical column lists are empty,
and otherwise succeeds, returning the config with its method field set to
the lowercased method. -/
theorem C7_build_validation (config : PreprocessConfig) (method : String) :
    (build config method = .error "method must be 'normalization' or 'onehot'" ↔
      ¬ (strToLower method = "normalization" ∨ strToLower method = "onehot")) ∧
    ((strToLower method = "normalization" ∨ strToLower method = "onehot") →
      (build config method =
          .error "No usable features found (no numeric or categorical columns)." ↔
        config.numeric_columns = [] ∧ config.categorical_columns = [])) ∧
    ((strToLower method = "normalization" ∨ strToLower method = "onehot") →
      ¬ (config.numeric_columns = [] ∧ config.categorical_columns = []) →
      ∃ pre, build config method =
        .ok (pre, { config with method := strToLower method })) := by
  by_cases hm : strToLower method = "normalization" ∨ strToLower method = "onehot"
  · by_cases hn : config.numeric_columns = []
    · by_cases hc : config.categorical_columns = []
      · have hb : build config method =
            .error "No usable features found (no numeric or categorical columns)." := by
          rcases hm with hm | hm <;> simp [build, hm, hn, hc]
        refine ⟨?_, fun _ => ?_, fun _ hnc => absurd ⟨hn, hc⟩ hnc⟩
        · rw [hb]; simp [hm]
        · rw [hb]; simp [hn, hc]
      · have hb : ∃ pre, build config method =
            .ok (pre, { config with method := strToLower method }) := by
          rcases hm with hm | hm <;>
            exact ⟨{ transformers := [.cat [.imputerMostFrequent, .encoderOneHot]
              config.categorical_columns] }, by simp [build, hm, hn, hc]⟩
        obtain ⟨pre, hb⟩ := hb
        refine ⟨?_, fun _ => ?_, fun _ _ => ⟨pre, hb⟩⟩
        · rw [hb]; simp [hm]
        · rw [hb]; simp [hc]
    · by_cases hc : config.categorical_columns = []
      · have hb : ∃ pre, build config method =
            .ok (pre, { config with method := strToLower method }) := by
          rcases hm with hm | hm
          · exact ⟨{ transformers := [.num [.imputerMedian, .scalerStandard]
              config.numeric_columns] }, by simp [build, hm, hn, hc]⟩
          · exact ⟨{ transformers := [.num [.imputerMedian]
              config.numeric_columns] }, by simp [build, hm, hn, hc]⟩
        obtain ⟨pre, hb⟩ := hb
        refine ⟨?_, fun _ => ?_, fun _ _ => ⟨pre, hb⟩⟩
        · rw [hb]; simp [hm]
        · rw [hb]; simp [hn]
      · have hb : ∃ pre, build config method =
            .ok (pre, { config with method := strToLower method }) := by
          rcases hm with hm | hm
          · exact ⟨{ transformers := [.num [.imputerMedian, .scalerStandard]
              config.numeric_columns, .cat [.imputerMostFrequent, .encoderOneHot]
              config.categorical_columns] }, by simp [build, hm, hn, hc]⟩
          · exact ⟨{ transformers := [.num [.imputerMedian]
              config.numeric_columns, .cat [.imputerMostFrequent, .encoderOneHot]
              config.categorical_columns] }, by simp [build, hm, hn, hc]⟩
        obtain ⟨pre, hb⟩ := hb
        refine ⟨?_, fun _ => ?_, fun _ _ => ⟨pre, hb⟩⟩
        · rw [hb]; simp [hm]
        · rw [hb]; simp [hn]
  · obtain ⟨h1, h2⟩ := not_or.mp hm
    have hb : build config method = .error "method must be 'normalization' or 'onehot'" := by
      simp [build, h1, h2]
    refine ⟨?_, fun h => absurd h hm, fun h => absurd h hm⟩
    rw [hb]
    simp [hm]

/-- C7 witness: the validation theorem applied to a concrete config and
the mixed-case method `"Onehot"`. -/
theorem C7_witness :
    ∃ pre, build cfgEx "Onehot" = .ok (pre, { cfgEx with method := "onehot" }) := by
  have h := (C7_build_validation cfgEx "Onehot").2.2 (by decide) (by decide)
  have he : strToLower "Onehot" = "onehot" := by decide
  rw [he] at h
  exact h

/-- C8: `get_session` returns the locally cached state on a local hit; on
a local miss with the durable tier configured it deserializes the durable
snapshot, repopulates the local tier and returns it; it fails, always
with the same not-found error, exactly when the local tier misses and the
durable tier yields no deserializable entry — a corrupt durable entry is
treated as a missing session, not as a distinct fatal error. -/
theorem C8_session_store_get (st : SessionStore) (id : String) :
    (∀ s, lookupA st.sessions id = some s → get_session st id = .ok (s, st)) ∧
    (∀ s, lookupA st.sessions id = none → st.use_redis = true →
      lookupA st.redis ("session:" ++ id) = some (.ok s) →
      get_session st id = .ok (s, { st with sessions := insertA st.sessions id s }) ∧
      lookupA (insertA st.sessions id s) id = some s) ∧
    ((get_session st id).isOk = false →
      get_session st id = .error "Invalid session_id. Upload a dataset first.") ∧
    ((get_session st id).isOk = false ↔
      lookupA st.sessions id = none ∧
      ¬ (st.use_redis = true ∧
         ∃ s, lookupA st.redis ("session:" ++ id) = some (.ok s))) := by
  cases hl : lookupA st.sessions id with
  | some s =>
    have hget : get_session st id = .ok (s, st) := by
      unfold get_session
      rw [hl]
    refine ⟨?_, ?_, ?_, ?_⟩
    · intro s2 hs2
      injection hs2 with hs2
      rw [← hs2]
      exact hget
    · intro s2 h2
      exact Option.noConfusion h2
    · intro hif
      rw [hget] at hif
      simp [Except.isOk, Except.toBool] at hif
    · rw [hget]
      simp [hl, Except.isOk, Except.toBool]
  | none =>
    by_cases hr : st.use_redis = true
    · cases hred : lookupA st.redis ("session:" ++ id) with
      | some entry =>
        cases entry with
        | ok s =>
          have hget : get_session st id =
              .ok (s, { st with sessions := insertA st.sessions id s }) := by
            unfold get_session
            rw [hl, if_pos hr, hred]
          refine ⟨?_, ?_, ?_, ?_⟩
          · intro s2 hs2
            exact Option.noConfusion hs2
          · intro s2 _ _ h3
            injection h3 with h3
            injection h3 with h3
            rw [← h3]
            exact ⟨hget, lookupA_insertA_self _ _ _⟩
          · intro hif
            rw [hget] at hif
            simp [Except.isOk, Except.toBool] at hif
          · rw [hget]
            simp [hl, hr, hred, Except.isOk, Except.toBool]
        | corrupt =>
          have hget : get_session st id =
              .error "Invalid session_id. Upload a dataset first." := by
            unfold get_session
            rw [hl, if_pos hr, hred]
          refine ⟨?_, ?_, ?_, ?_⟩
          · intro s2 hs2
            exact Option.noConfusion hs2
          · intro s2 _ _ h3
            injection h3 with h3
            exact RedisEntry.noConfusion h3
          · intro _
            exact hget
          · rw [hget]
            simp [hl, hr, hred, Except.isOk, Except.toBool]
      | none =>
        have hget : get_session st id =
            .error "Invalid session_id. Upload a dataset first." := by
          unfold get_session
          rw [hl, if_pos hr, hred]
        refine ⟨?_, ?_, ?_, ?_⟩
        · intro s2 hs2
          exact Option.noConfusion hs2
        · intro s2 _ _ h3
          exact Option.noConfusion h3
        · intro _
          exact hget
        · rw [hget]
          simp [hl, hr, hred, Except.isOk, Except.toBool]
    · have hget : get_session st id =
          .error "Invalid session_id. Upload a dataset first." := by
        unfold get_session
        rw [hl, if_neg hr]
      refine ⟨?_, ?_, ?_, ?_⟩
      · intro s2 hs2
        exact Option.noConfusion hs2
      · intro s2 _ hr2
        exact absurd hr2 hr
      · intro _
        exact hget
      · rw [hget]
        simp [hl, hr, Except.isOk, Except.toBool]

/-- C8 witness: a local miss on the concrete store with a good durable
entry returns the deserialized session and repopulates the local tier. -/
theorem C8_witness :
    get_session stEx "remote-id" =
      .ok (sessTrained,
        { stEx with sessions := insertA stEx.sessions "remote-id" sessTrained }) ∧
    lookupA (insertA stEx.sessions "remote-id" sessTrained) "remote-id" =
      some sessTrained :=
  ((C8_session_store_get stEx "remote-id").2.1) sessTrained (by decide) (by decide)
    (by decide)

theorem sanitize_chars (model_name : String) :
    ∀ c ∈ (sanitizeName model_name).toList,
      c.isAlphanum = true ∨ c = '_' ∨ c = '-' := by
  intro c hc
  replace hc : c ∈ model_name.toList.filter
      (fun c => c.isAlphanum || c = '_' || c = '-') := hc
  have h2 := (List.mem_filter.mp hc).2
  simpa [or_assoc] using h2

/-- C9: the artifact save operation sanitizes the caller-supplied name to
alphanumerics, underscore and hyphen only, so the produced path is always
`saved_models/<sanitized>.joblib` with a basename free of slashes,
backslashes and dots, and the operation fails with the no-trained-model
error when no trained pipeline is stored for the requested model type. -/
theorem C9_save_model_sanitization (sess : Session) (model_type model_name : String) :
    (lookupA sess.models (strToLower model_type) = none →
      save_model sess model_type model_name =
        .error "No trained model of this type for this session.") ∧
    (∀ info, lookupA sess.models (strToLower model_type) = some info →
      save_model sess model_type model_name =
        .ok ("saved_models/" ++ (sanitizeName model_name ++ ".joblib"))) ∧
    (∀ c ∈ (sanitizeName model_name).toList,
      c.isAlphanum = true ∨ c = '_' ∨ c = '-') ∧
    '/' ∉ (sanitizeName model_name).toList ∧
    '\\' ∉ (sanitizeName model_name).toList ∧
    '.' ∉ (sanitizeName model_name).toList := by
  have hchars := sanitize_chars model_name
  have hnot : ∀ c2 : Char, c2.isAlphanum = false → c2 ≠ '_' → c2 ≠ '-' →
      c2 ∉ (sanitizeName model_name).toList := by
    intro c2 ha hu hh hmem
    rcases hchars c2 hmem with h | h | h
    · rw [ha] at h
      exact Bool.noConfusion h
    · exact hu h
    · exact hh h
  have hhead : ¬ ((sanitizeName model_name ++ ".joblib").toList.head? = some '/') := by
    have happ : (sanitizeName model_name ++ ".joblib").toList =
        (sanitizeName model_name).toList ++ ".joblib".toList := String.data_append _ _
    rw [happ]
    cases hcl : (sanitizeName model_name).toList with
    | nil => decide
    | cons c cs =>
      simp only [List.cons_append, List.head?_cons, Option.some.injEq]
      intro hc
      have : c ∈ (sanitizeName model_name).toList := by
        rw [hcl]
        exact List.mem_cons_self _ _
      rcases hchars c this with h | h | h <;> rw [hc] at h
      · exact absurd h (by decide)
      · exact absurd h (by decide)
      · exact absurd h (by decide)
  refine ⟨?_, ?_, hchars, ?_, ?_, ?_⟩
  · intro h
    unfold save_model
    rw [h]
  · intro info h
    simp only [save_model, h, os_path_join]
    rw [if_neg hhead]
    have hfold : ("saved_models" : String) ++ "/" = "saved_models/" := by decide
    rw [hfold]
  · exact hnot '/' (by decide) (by decide) (by decide)
  · exact hnot '\\' (by decide) (by decide) (by decide)
  · exact hnot '.' (by decide) (by decide) (by decide)

/-- C9 witness: saving under a hostile name (`../evil name!.sh`) from the
concrete trained session produces a path inside `saved_models` built from
the sanitized name. -/
theorem C9_witness :
    save_model sessTrained "MLP" "../evil name!.sh" =
      .ok ("saved_models/" ++ (sanitizeName "../evil name!.sh" ++ ".joblib")) :=
  (C9_save_model_sanitization sessTrained "MLP" "../evil name!.sh").2.1
    { pipeline := { preprocess := preEx, clf := .perceptron }, metrics := resEx }
    (by decide)

theorem mapIntTokens_eq_none {l : List String} {t : String}
    (ht : t ∈ l) (h : parseIntToken t = none) : mapIntTokens l = none := by
  induction l with
  | nil => cases ht
  | cons a l ih =>
    rcases List.mem_cons.mp ht with rfl | ht2
    · unfold mapIntTokens
      rw [h]
    · unfold mapIntTokens
      rw [ih ht2]
      cases parseIntToken a <;> rfl

theorem mapIntTokens_mem {l : List String} {arr : List Int}
    (h : mapIntTokens l = some arr) {t : String} (ht : t ∈ l) :
    ∃ v, parseIntToken t = some v ∧ v ∈ arr := by
  induction l generalizing arr with
  | nil => cases ht
  | cons a l ih =>
    unfold mapIntTokens at h
    cases hpa : parseIntToken a with
    | none => rw [hpa] at h; simp at h
    | some v =>
      rw [hpa] at h
      cases hml : mapIntTokens l with
      | none => rw [hml] at h; simp at h
      | some vs =>
        rw [hml] at h
        simp only [Option.some.injEq] at h
        subst h
        rcases List.mem_cons.mp ht with rfl | ht2
        · exact ⟨v, hpa, List.mem_cons_self _ _⟩
        · obtain ⟨w, hw, hwm⟩ := ih hml ht2
          exact ⟨w, hw, List.mem_cons_of_mem _ hwm⟩

theorem badHiddenSpec_parse_error {p : TrainParams} (h : badHiddenSpec p) :
    ∃ e, requestHiddenLayers p = .error e := by
  unfold requestHiddenLayers
  rcases h with ⟨xs, hx, x, hxm, hx0⟩ | ⟨s, hs, hcase⟩ | ⟨n, hn, hn0⟩ |
    ⟨hnone, nl, nn, hnl, hnn, hb⟩
  · refine ⟨"All hidden layer sizes must be positive integers", ?_⟩
    rw [hx]
    have hany : xs.any (fun x => x ≤ 0) = true :=
      List.any_eq_true.mpr ⟨x, hxm, by simpa using hx0⟩
    simp [parse_hidden_layers, hany]
  · rw [hs]
    rcases hcase with hempty | ⟨t, htm, htn⟩ | ⟨t, htm, v, htv, hv0⟩
    · refine ⟨"hidden_layers string empty", ?_⟩
      simp [parse_hidden_layers, hempty]
    · refine ⟨"invalid literal for int", ?_⟩
      have hne : ¬ splitTokens s = [] := by
        intro hc
        rw [hc] at htm
        cases htm
      have hmm := mapIntTokens_eq_none htm htn
      simp [parse_hidden_layers, hne, hmm]
    · have hne : ¬ splitTokens s = [] := by
        intro hc
        rw [hc] at htm
        cases htm
      cases hmm : mapIntTokens (splitTokens s) with
      | none =>
        refine ⟨"invalid literal for int", ?_⟩
        simp [parse_hidden_layers, hne, hmm]
      | some arr =>
        refine ⟨"All hidden layer sizes must be positive integers", ?_⟩
        obtain ⟨w, hw, hwm⟩ := mapIntTokens_mem hmm htm
        rw [htv] at hw
        injection hw with hw
        have hany : arr.any (fun x => x ≤ 0) = true :=
          List.any_eq_true.mpr ⟨w, hwm, by simp [← hw] at hv0 ⊢; exact hv0⟩
        simp [parse_hidden_layers, hne, hmm, hany]
  · refine ⟨"All hidden layer sizes must be positive integers", ?_⟩
    rw [hn]
    simp [parse_hidden_layers, hn0]
  · refine ⟨"num_layers and neurons must be positive integers", ?_⟩
    rw [hnone, hnl, hnn]
    have hb2 : (nl ≤ 0 || nn ≤ 0) = true := by
      rcases hb with hb | hb <;> simp [hb]
    simp [parse_hidden_layers, hb2]

/-- C2 counterexample: the training request `num_layers=3, neurons=0`
(no `nuearals` key) contains the non-positive value 0 in the
`num_layers`/`neurons` pair, yet the training call does not fail: Python's
falsy `or` coalescing turns `neurons=0` into an absent neuron count, the
pair fallback is skipped, and training proceeds with the default hidden
layer stack `(100,)`. -/
theorem C2_counterexample :
    pZeroNeurons.num_layers = some 3 ∧ pZeroNeurons.neurons = some 0 ∧
    pZeroNeurons.nuearals = none ∧
    requestHiddenLayers pZeroNeurons = .ok [100] ∧
    (train_model sessEx "mlp" pZeroNeurons (Except.ok psEx2)).isOk = true ∧
    (train_model sessEx "mlp" pZeroNeurons (Except.ok psEx2)).map
        (fun x => (lookupA x.1.models "mlp").map (fun e => e.pipeline.clf.hiddenSizes)) =
      .ok (some (some [100])) := by
  refine ⟨rfl, rfl, rfl, by decide, by decide, by decide⟩

/-- C2 (amended): for an MLP training request on a session with a
configured preprocessor, a non-positive value in an explicit
`hidden_layers` list, string or integer, an empty or unparseable
`hidden_layers` string, and a non-positive value in the
`(num_layers, effective neurons)` pair — the effective neuron count being
`neurons`-or-`nuearals` under Python falsy coalescing, so that
`neurons=0` with no `nuearals` key instead silently selects the default
`(100,)` — make the training call fail with the `Invalid hidden_layers`
error, independently of the training oracle, so before any training work
begins. -/
theorem C2_invalid_hyperparameter (sess : Session) (pre : ColumnTransformer)
    (a : String) (p : TrainParams) (hpre : sess.preprocessor = some pre)
    (ha : isMLPAlias a) (hbad : badHiddenSpec p) :
    ∃ e, requestHiddenLayers p = .error e ∧
      ∀ oracle, train_model sess a p oracle =
        .error ("Invalid hidden_layers: " ++ e) := by
  obtain ⟨e, he⟩ := badHiddenSpec_parse_error hbad
  refine ⟨e, he, fun oracle => ?_⟩
  have h1 : ¬ (strToLower a = "perceptron") := by
    rcases ha with h | h | h <;> rw [h] <;> decide
  have h2 : ¬ (strToLower a = "decision_tree") := by
    rcases ha with h | h | h <;> rw [h] <;> decide
  unfold isMLPAlias at ha
  simp only [train_model, hpre]
  rw [if_neg h1, if_neg h2, if_pos ha, he]

/-- C2 witness: the amended theorem applied at the concrete session and
the request whose explicit hidden-layer value is the integer 0. -/
theorem C2_witness :
    (train_model sessEx "mlp" pBad (Except.ok psEx2)).isOk = false := by
  obtain ⟨e, he, hall⟩ := C2_invalid_hyperparameter sessEx preEx "mlp" pBad rfl
    (by unfold isMLPAlias; decide) (Or.inr (Or.inr (Or.inl ⟨0, rfl, by decide⟩)))
  rw [hall (Except.ok psEx2)]
  rfl

theorem models_set (s : Session) (m : List (String × StoredModel)) :
    ({ s with models := m } : Session).models = m := rfl

theorem get_confusion_matrix_none {s : Session} {b : String}
    (h : lookupA s.models (strToLower b) = none) :
    get_confusion_matrix s b =
      .error "No trained model of this type for this session." := by
  unfold get_confusion_matrix
  rw [h]

theorem save_model_none {s : Session} {b name : String}
    (h : lookupA s.models (strToLower b) = none) :
    save_model s b name =
      .error "No trained model of this type for this session." := by
  unfold save_model
  rw [h]

theorem train_model_mlp_eq (sess : Session) (pre : ColumnTransformer) (a : String)
    (p : TrainParams) (hl : List Int) (ps : List (Nat × Nat))
    (hpre : sess.preprocessor = some pre) (ha : isMLPAlias a)
    (hp : requestHiddenLayers p = .ok hl) :
    train_model sess a p (.ok ps) =
      .ok ({ sess with models := insertA sess.models (strToLower a) (mlpEntry pre hl p ps) },
           evalResult "multilayer_perceptron" ps p.test_size) := by
  have h1 : ¬ (strToLower a = "perceptron") := by
    rcases ha with h | h | h <;> rw [h] <;> decide
  have h2 : ¬ (strToLower a = "decision_tree") := by
    rcases ha with h | h | h <;> rw [h] <;> decide
  unfold isMLPAlias at ha
  simp only [train_model, hpre]
  rw [if_neg h1, if_neg h2, if_pos ha, hp]
  rfl

/-- C10: training under any of the aliases `mlp`, `multilayer_perceptron`,
`backpropagation` (case-insensitively) produces a `TrainResult` carrying
model type `multilayer_perceptron`, while the session's models mapping is
keyed by the lowercased requested alias itself; training the same session
under two different aliases yields two distinct stored entries, and a
metrics or persistence request under an alias not used for training does
not find the trained model. -/
theorem C10_mlp_alias_keying (sess : Session) (pre : ColumnTransformer)
    (a b : String) (p q : TrainParams) (hl1 hl2 : List Int)
    (ps1 ps2 : List (Nat × Nat))
    (hpre : sess.preprocessor = some pre)
    (ha : isMLPAlias a) (hb : isMLPAlias b)
    (hp1 : requestHiddenLayers p = .ok hl1)
    (hp2 : requestHiddenLayers q = .ok hl2)
    (hdiff : strToLower b ≠ strToLower a)
    (hnob : lookupA sess.models (strToLower b) = none) :
    ∃ s2 r s3 r2,
      train_model sess a p (Except.ok ps1) = .ok (s2, r) ∧
      train_model s2 b q (Except.ok ps2) = .ok (s3, r2) ∧
      r.model_type = "multilayer_perceptron" ∧
      r2.model_type = "multilayer_perceptron" ∧
      (∃ e1, lookupA s2.models (strToLower a) = some e1 ∧ e1.metrics = r) ∧
      get_confusion_matrix s2 b =
        .error "No trained model of this type for this session." ∧
      save_model s2 b "m" =
        .error "No trained model of this type for this session." ∧
      (∃ e1 e2, lookupA s3.models (strToLower a) = some e1 ∧ e1.metrics = r ∧
        lookupA s3.models (strToLower b) = some e2 ∧ e2.metrics = r2) := by
  have h1 := train_model_mlp_eq sess pre a p hl1 ps1 hpre ha hp1
  have h2 := train_model_mlp_eq
    { sess with models := insertA sess.models (strToLower a) (mlpEntry pre hl1 p ps1) }
    pre b q hl2 ps2 hpre hb hp2
  refine ⟨_, _, _, _, h1, h2, rfl, rfl, ?_, ?_, ?_, ?_⟩
  · exact ⟨mlpEntry pre hl1 p ps1, lookupA_insertA_self _ _ _, rfl⟩
  · refine get_confusion_matrix_none ?_
    show lookupA (insertA sess.models (strToLower a) (mlpEntry pre hl1 p ps1))
      (strToLower b) = none
    rw [lookupA_insertA_ne _ _ _ _ hdiff]
    exact hnob
  · refine save_model_none ?_
    show lookupA (insertA sess.models (strToLower a) (mlpEntry pre hl1 p ps1))
      (strToLower b) = none
    rw [lookupA_insertA_ne _ _ _ _ hdiff]
    exact hnob
  · refine ⟨mlpEntry pre hl1 p ps1, mlpEntry pre hl2 q ps2, ?_, rfl, ?_, rfl⟩
    · show lookupA (insertA (insertA sess.models (strToLower a) (mlpEntry pre hl1 p ps1))
        (strToLower b) (mlpEntry pre hl2 q ps2)) (strToLower a) = some (mlpEntry pre hl1 p ps1)
      rw [lookupA_insertA_ne _ _ _ _ (Ne.symm hdiff)]
      exact lookupA_insertA_self _ _ _
    · show lookupA (insertA (insertA sess.models (strToLower a) (mlpEntry pre hl1 p ps1))
        (strToLower b) (mlpEntry pre hl2 q ps2)) (strToLower b) = some (mlpEntry pre hl2 q ps2)
      exact lookupA_insertA_self _ _ _

/-- C10 witness: the alias-keying theorem at the concrete session, alias
`mlp` for the first training call and `Backpropagation` for the second. -/
theorem C10_witness :
    ∃ s2 r s3 r2,
      train_model sessEx "mlp" pW (Except.ok psEx2) = .ok (s2, r) ∧
      train_model s2 "Backpropagation" qW (Except.ok psEx2) = .ok (s3, r2) ∧
      r.model_type = "multilayer_perceptron" ∧
      r2.model_type = "multilayer_perceptron" ∧
      (∃ e1, lookupA s2.models (strToLower "mlp") = some e1 ∧ e1.metrics = r) ∧
      get_confusion_matrix s2 "Backpropagation" =
        .error "No trained model of this type for this session." ∧
      save_model s2 "Backpropagation" "m" =
        .error "No trained model of this type for this session." ∧
      (∃ e1 e2, lookupA s3.models (strToLower "mlp") = some e1 ∧ e1.metrics = r ∧
        lookupA s3.models (strToLower "Backpropagation") = some e2 ∧
        e2.metrics = r2) :=
  C10_mlp_alias_keying sessEx preEx "mlp" "Backpropagation" pW qW [8] [4, 2]
    psEx2 psEx2 rfl (by unfold isMLPAlias; decide) (by unfold isMLPAlias; decide)
    (by decide) (by decide) (by decide) (by decide)

theorem getCol_length {df : DataFrame} {n : String} (h : n ∈ df.colNames) :
    (df.getCol n).length = df.rows.length := by
  obtain ⟨c, hc, hcn⟩ := List.mem_map.mp h
  obtain ⟨i, hi⟩ := idxOf?_isSome (p := fun c => c.name = n) hc (by simp [hcn])
  unfold DataFrame.getCol DataFrame.colIdx
  rw [hi]
  simp

theorem select_rows_length (df : DataFrame) (names : List String) :
    (df.select names).rows.length = df.rows.length := by
  simp [DataFrame.select]

theorem getCol_maskFilter (df : DataFrame) (t : String) (mask : List Bool)
    (h : t ∈ df.colNames) :
    DataFrame.getCol { cols := df.cols, rows := maskFilter df.rows mask } t =
      maskFilter (df.getCol t) mask := by
  obtain ⟨c, hc, hcn⟩ := List.mem_map.mp h
  obtain ⟨i, hi⟩ := idxOf?_isSome (p := fun c => c.name = t) hc (by simp [hcn])
  unfold DataFrame.getCol DataFrame.colIdx
  simp only []
  rw [hi]
  rw [maskFilter_map]

theorem analyze_dataframe_congr {df df2 : DataFrame} (t : String)
    (h : df2.cols = df.cols) :
    analyze_dataframe df2 t = analyze_dataframe df t := by
  simp only [analyze_dataframe, DataFrame.colNames, DataFrame.select]
  simp only [h]

theorem build_ok {config : PreprocessConfig} {method : String}
    {pre : ColumnTransformer} {config2 : PreprocessConfig}
    (h : build config method = .ok (pre, config2)) :
    config2 = { config with method := strToLower method } := by
  simp only [build] at h
  split at h
  · exact Except.noConfusion h
  · split at h <;> split at h <;> split at h <;>
      first
        | exact Except.noConfusion h
        | (injection h with h2
           rw [Prod.mk.injEq] at h2
           exact h2.2.symm)

theorem preprocess_data_spec {sess s2 : Session} {m t : String}
    {sm : PreprocessSummary}
    (h : preprocess_data sess m t = .ok (s2, sm)) :
    ∃ cfg0 pre cfg,
      analyze_dataframe sess.dataframe t = .ok cfg0 ∧
      build cfg0 m = .ok (pre, cfg) ∧
      s2.preprocess_config = some cfg ∧
      s2.preprocessor = some pre ∧
      s2.dataframe.cols = sess.dataframe.cols ∧
      s2.models = sess.models ∧
      (∃ X2 y2, s2.X = some X2 ∧ s2.y = some y2 ∧
        X2.cols = (sess.dataframe.select cfg.feature_columns).cols ∧
        X2.rows.length = sess.dataframe.rows.length - missingCount sess.dataframe t ∧
        y2.length = sess.dataframe.rows.length - missingCount sess.dataframe t) ∧
      s2.dataframe.rows = maskFilter sess.dataframe.rows
        ((sess.dataframe.getCol t).map (fun v => !decide (v = Value.missing))) ∧
      s2.dataframe.rows.length =
        sess.dataframe.rows.length - missingCount sess.dataframe t ∧
      sm.dropped_rows_with_missing_target =
        (if missingCount sess.dataframe t = 0 then none
         else some (missingCount sess.dataframe t)) ∧
      missingCount s2.dataframe t = 0 := by
  cases h1 : analyze_dataframe sess.dataframe t with
  | error e =>
    simp only [preprocess_data, h1] at h
    exact Except.noConfusion h
  | ok cfg0 =>
    cases h2 : build cfg0 m with
    | error e =>
      simp only [preprocess_data, h1, h2] at h
      exact Except.noConfusion h
    | ok pc =>
      obtain ⟨pre, cfg⟩ := pc
      have ht : t ∈ sess.dataframe.colNames := (analyze_ok h1).1
      have hylen : (sess.dataframe.getCol t).length = sess.dataframe.rows.length :=
        getCol_length ht
      simp only [preprocess_data, h1, h2] at h
      by_cases hk : (sess.dataframe.getCol t).countP
          (fun v => decide (v = Value.missing)) > 0
      · rw [if_pos hk] at h
        injection h with h3
        rw [Prod.mk.injEq] at h3
        obtain ⟨h4, h5⟩ := h3
        subst h4
        subst h5
        have hk0 : ¬ (missingCount sess.dataframe t = 0) := by
          unfold missingCount
          omega
        dsimp only
        refine ⟨cfg0, pre, cfg, rfl, h2, rfl, rfl, rfl, rfl, ?_, rfl, ?_, ?_, ?_⟩
        · refine ⟨_, _, rfl, rfl, rfl, ?_, ?_⟩
          · dsimp only
            have hx1 : (sess.dataframe.select cfg.feature_columns).rows.length =
                (sess.dataframe.getCol t).length := by
              rw [select_rows_length, hylen]
            rw [maskFilter_length_congr _ _ _ hx1, maskFilter_not_length]
            unfold missingCount
            rw [hylen]
          · rw [maskFilter_not_length]
            unfold missingCount
            rw [hylen]
        · rw [maskFilter_length_congr _ _ _ hylen.symm, maskFilter_not_length]
          unfold missingCount
          rw [hylen]
        · rw [if_neg hk0]
          unfold missingCount
          rfl
        · unfold missingCount
          rw [getCol_maskFilter _ _ _ ht, countP_maskFilter_not]
      · rw [if_neg hk] at h
        injection h with h3
        rw [Prod.mk.injEq] at h3
        obtain ⟨h4, h5⟩ := h3
        subst h4
        subst h5
        have hk0 : missingCount sess.dataframe t = 0 := by
          unfold missingCount
          omega
        have hmlen : sess.dataframe.rows.length =
            ((sess.dataframe.getCol t).map
              (fun v => !decide (v = Value.missing))).length := by
          rw [List.length_map, hylen]
        have htrue : ∀ b ∈ (sess.dataframe.getCol t).map
            (fun v => !decide (v = Value.missing)), b = true := by
          intro b hb
          obtain ⟨v, hv, hvb⟩ := List.mem_map.mp hb
          have hnm := List.countP_eq_zero.mp
            (by unfold missingCount at hk0; exact hk0) v hv
          rw [← hvb]
          simpa using hnm
        dsimp only
        refine ⟨cfg0, pre, cfg, rfl, h2, rfl, rfl, rfl, rfl, ?_, ?_, ?_, ?_, hk0⟩
        · refine ⟨_, _, rfl, rfl, rfl, ?_, ?_⟩
          · rw [select_rows_length, hk0, Nat.sub_zero]
          · rw [hylen, hk0, Nat.sub_zero]
        · rw [maskFilter_all_true _ _ hmlen htrue]
        · rw [hk0, Nat.sub_zero]
        · rw [if_pos hk0]

theorem preprocess_nodrop (s : Session) (m t : String)
    {cfg0 : PreprocessConfig} {pre : ColumnTransformer} {cfg : PreprocessConfig}
    (h1 : analyze_dataframe s.dataframe t = .ok cfg0)
    (h2 : build cfg0 m = .ok (pre, cfg))
    (h0 : missingCount s.dataframe t = 0) :
    ∃ s3 sm2, preprocess_data s m t = .ok (s3, sm2) ∧
      s3.dataframe = s.dataframe ∧
      sm2.dropped_rows_with_missing_target = none := by
  have h0n : ¬ ((s.dataframe.getCol t).countP
      (fun v => decide (v = Value.missing)) > 0) := by
    unfold missingCount at h0
    omega
  have hmain : preprocess_data s m t =
      .ok ({ s with
               dataframe := s.dataframe,
               preprocess_config := some cfg,
               preprocessor := some pre,
               X := some (s.dataframe.select cfg.feature_columns),
               y := some (s.dataframe.getCol t) },
           { method := cfg.method,
             target_column := cfg.target_column,
             feature_columns := cfg.feature_columns,
             numeric_columns := cfg.numeric_columns,
             categorical_columns := cfg.categorical_columns,
             dropped_rows_with_missing_target := none }) := by
    simp only [preprocess_data, h1, h2]
    rw [if_neg h0n]
  exact ⟨_, _, hmain, rfl, rfl⟩

theorem train_model_fields {sess s2 : Session} {mt : String} {p : TrainParams}
    {o : Except String (List (Nat × Nat))} {r : TrainResult}
    (h : train_model sess mt p o = .ok (s2, r)) :
    s2.preprocess_config = sess.preprocess_config ∧
    s2.preprocessor = sess.preprocessor ∧
    s2.X = sess.X ∧ s2.y = sess.y ∧ s2.dataframe = sess.dataframe := by
  cases hpre : sess.preprocessor with
  | none => simp [train_model, hpre] at h
  | some pre =>
    simp only [train_model, hpre] at h
    repeat' split at h
    all_goals
      first
        | exact Except.noConfusion h
        | (injection h with h3
           rw [Prod.mk.injEq] at h3
           obtain ⟨h4, h5⟩ := h3
           subst h4
           exact ⟨rfl, rfl, rfl, rfl, rfl⟩)

/-- C4: a preprocessing call on a session whose dataset has k rows with a
missing target value drops exactly those rows from the stored dataset,
the feature matrix X and the target series y alike, so all three end with
original − k rows; the dropped-row count is reported exactly when k > 0
and equals original − cleaned; the mutation is permanent: a second
preprocessing call succeeds on the already-cleaned data and drops
nothing. -/
theorem C4_missing_target_drop (sess : Session) (m t : String)
    (s2 : Session) (sm : PreprocessSummary)
    (h : preprocess_data sess m t = .ok (s2, sm)) :
    s2.dataframe.rows.length =
      sess.dataframe.rows.length - missingCount sess.dataframe t ∧
    (∃ X2 y2, s2.X = some X2 ∧ s2.y = some y2 ∧
      X2.rows.length = sess.dataframe.rows.length - missingCount sess.dataframe t ∧
      y2.length = sess.dataframe.rows.length - missingCount sess.dataframe t) ∧
    s2.dataframe.rows = maskFilter sess.dataframe.rows
      ((sess.dataframe.getCol t).map (fun v => !decide (v = Value.missing))) ∧
    sm.dropped_rows_with_missing_target =
      (if missingCount sess.dataframe t = 0 then none
       else some (missingCount sess.dataframe t)) ∧
    missingCount sess.dataframe t =
      sess.dataframe.rows.length - s2.dataframe.rows.length ∧
    (∃ s3 sm2, preprocess_data s2 m t = .ok (s3, sm2) ∧
      s3.dataframe = s2.dataframe ∧
      sm2.dropped_rows_with_missing_target = none) := by
  obtain ⟨cfg0, pre, cfg, h1, h2, hc, hpp, hcols, hmodels,
    ⟨X2, y2, hX, hy, hXc, hXl, hyl⟩, hrows, hlen, hdrop, h0⟩ :=
    preprocess_data_spec h
  have ht : t ∈ sess.dataframe.colNames := (analyze_ok h1).1
  have hkb : missingCount sess.dataframe t ≤ sess.dataframe.rows.length := by
    unfold missingCount
    have hle := List.countP_le_length (p := fun v => decide (v = Value.missing))
      (l := sess.dataframe.getCol t)
    rw [getCol_length ht] at hle
    exact hle
  have h1b : analyze_dataframe s2.dataframe t = .ok cfg0 := by
    rw [analyze_dataframe_congr t hcols]
    exact h1
  exact ⟨hlen, ⟨X2, y2, hX, hy, hXl, hyl⟩, hrows, hdrop, by omega,
    preprocess_nodrop s2 m t h1b h2 h0⟩

/-- C4 witness: preprocessing the fixture dataset (3 rows, one missing
target) drops exactly one row from the dataset, X and y, and reports it. -/
theorem C4_witness :
    ∃ s2 sm, preprocess_data (upload_dataset dfEx) "normalization" "label" =
        .ok (s2, sm) ∧
      s2.dataframe.rows.length = 2 ∧
      (∃ X2 y2, s2.X = some X2 ∧ s2.y = some y2 ∧
        X2.rows.length = 2 ∧ y2.length = 2) ∧
      sm.dropped_rows_with_missing_target = some 1 := by
  obtain ⟨⟨s2, sm⟩, h⟩ := exists_ok_of_isOk
    (x := preprocess_data (upload_dataset dfEx) "normalization" "label") (by decide)
  obtain ⟨hlen, ⟨X2, y2, hX, hy, hXl, hyl⟩, hrows, hdrop, hk, hsecond⟩ :=
    C4_missing_target_drop _ _ _ _ _ h
  have e1 : (upload_dataset dfEx).dataframe.rows.length -
      missingCount (upload_dataset dfEx).dataframe "label" = 2 := by decide
  have e2 : (if missingCount (upload_dataset dfEx).dataframe "label" = 0 then
      (none : Option Nat)
    else some (missingCount (upload_dataset dfEx).dataframe "label")) = some 1 := by
    decide
  rw [e1] at hlen hXl hyl
  rw [e2] at hdrop
  exact ⟨s2, sm, h, hlen, ⟨X2, y2, hX, hy, hXl, hyl⟩, hdrop⟩

/-- C5: in every reachable session state — after creation and any sequence
of successful preprocessing and training calls — the preprocessing config,
preprocessor, X and y are all absent or all present and mutually
consistent: X and y have the same row count and X carries exactly the
configured feature columns. -/
theorem C5_session_invariant {s : Session} (h : Reachable s) : consistent s := by
  induction h with
  | upload df => exact Or.inl ⟨rfl, rfl, rfl, rfl⟩
  | preprocess hr hp ih =>
    obtain ⟨cfg0, pre, cfg, h1, h2, hc, hpp, hcols, hmodels,
      ⟨X2, y2, hX, hy, hXc, hXl, hyl⟩, _, _, _, _⟩ := preprocess_data_spec hp
    right
    refine ⟨cfg, pre, X2, y2, hc, hpp, hX, hy, ?_, ?_⟩
    · rw [hXl, hyl]
    · rw [hXc]
      have hcfg := build_ok h2
      obtain ⟨ht2, _, _, hfeat, _, _⟩ := analyze_ok h1
      have hfr : cfg.feature_columns = cfg0.feature_columns := by rw [hcfg]
      rw [hfr, hfeat]
      refine select_cols_names _ _ ?_
      intro n hn
      exact (List.mem_filter.mp hn).1
  | train hr htm ih =>
    obtain ⟨h1, h2, h3, h4, h5⟩ := train_model_fields htm
    unfold consistent at ih ⊢
    rw [h1, h2, h3, h4]
    exact ih

/-- C5 witness: the invariant theorem applied to the reachable state
produced by uploading the fixture dataset. -/
theorem C5_witness : consistent (upload_dataset dfEx) :=
  C5_session_invariant (Reachable.upload dfEx)

theorem tpC_le_predictedC (ps : List (Nat × Nat)) (c : Nat) :
    tpC ps c ≤ predictedC ps c := by
  apply List.countP_mono_left
  intro x hx hpx
  simp only [Bool.and_eq_true, decide_eq_true_eq] at hpx
  simp [hpx.2]

theorem tpC_le_supportC (ps : List (Nat × Nat)) (c : Nat) :
    tpC ps c ≤ supportC ps c := by
  apply List.countP_mono_left
  intro x hx hpx
  simp only [Bool.and_eq_true, decide_eq_true_eq] at hpx
  simp [hpx.1]

theorem precC_nonneg (ps : List (Nat × Nat)) (c : Nat) : 0 ≤ precC ps c := by
  unfold precC
  split
  · exact le_refl _
  · positivity

theorem recC_nonneg (ps : List (Nat × Nat)) (c : Nat) : 0 ≤ recC ps c := by
  unfold recC
  split
  · exact le_refl _
  · positivity

theorem precC_le_one (ps : List (Nat × Nat)) (c : Nat) : precC ps c ≤ 1 := by
  unfold precC
  split
  · norm_num
  · rename_i h
    rw [div_le_one (by exact_mod_cast Nat.pos_of_ne_zero h)]
    exact_mod_cast tpC_le_predictedC ps c

theorem recC_le_one (ps : List (Nat × Nat)) (c : Nat) : recC ps c ≤ 1 := by
  unfold recC
  split
  · norm_num
  · rename_i h
    rw [div_le_one (by exact_mod_cast Nat.pos_of_ne_zero h)]
    exact_mod_cast tpC_le_supportC ps c

theorem f1C_nonneg (ps : List (Nat × Nat)) (c : Nat) : 0 ≤ f1C ps c := by
  simp only [f1C]
  split
  · exact le_refl _
  · rename_i h
    have hp := precC_nonneg ps c
    have hr := recC_nonneg ps c
    have hpr : 0 < precC ps c + recC ps c :=
      lt_of_le_of_ne (by positivity) (Ne.symm h)
    exact div_nonneg (by positivity) hpr.le

theorem f1C_le_one (ps : List (Nat × Nat)) (c : Nat) : f1C ps c ≤ 1 := by
  simp only [f1C]
  split
  · norm_num
  · rename_i h
    have hp0 := precC_nonneg ps c
    have hr0 := recC_nonneg ps c
    have hp1 := precC_le_one ps c
    have hr1 := recC_le_one ps c
    have hpr : 0 < precC ps c + recC ps c :=
      lt_of_le_of_ne (by positivity) (Ne.symm h)
    rw [div_le_one hpr]
    nlinarith [mul_nonneg (sub_nonneg.mpr hp1) hr0,
      mul_nonneg (sub_nonneg.mpr hr1) hp0]

theorem supportC_pos {ps : List (Nat × Nat)} {c : Nat}
    (h : c ∈ ps.map Prod.fst) : 0 < supportC ps c := by
  unfold supportC
  rw [List.countP_pos_iff]
  obtain ⟨q, hq, hqc⟩ := List.mem_map.mp h
  exact ⟨q, hq, by simp [hqc]⟩

theorem predictedC_eq_zero {ps : List (Nat × Nat)} {c : Nat}
    (h : c ∉ ps.map Prod.snd) : predictedC ps c = 0 := by
  unfold predictedC
  rw [List.countP_eq_zero]
  intro q hq
  simp only [decide_eq_true_eq]
  intro hqc
  exact h (List.mem_map.mpr ⟨q, hq, hqc⟩)

theorem metrics_zero_of_not_predicted {ps : List (Nat × Nat)} {c : Nat}
    (h : c ∉ ps.map Prod.snd) :
    precC ps c = 0 ∧ recC ps c = 0 ∧ f1C ps c = 0 := by
  have hpred := predictedC_eq_zero h
  have htp : tpC ps c = 0 := Nat.le_zero.mp (hpred ▸ tpC_le_predictedC ps c)
  have hprec : precC ps c = 0 := by
    unfold precC
    rw [if_pos hpred]
  have hrec : recC ps c = 0 := by
    unfold recC
    split
    · rfl
    · rw [htp]
      simp
  refine ⟨hprec, hrec, ?_⟩
  simp only [f1C]
  rw [hprec, hrec]
  norm_num

theorem f1C_eq_zero_of_no_support {ps : List (Nat × Nat)} {c : Nat}
    (h : c ∉ ps.map Prod.fst) : f1C ps c = 0 := by
  have hsup : supportC ps c = 0 := by
    unfold supportC
    rw [List.countP_eq_zero]
    intro q hq
    simp only [decide_eq_true_eq]
    intro hqc
    exact h (List.mem_map.mpr ⟨q, hq, hqc⟩)
  have htp : tpC ps c = 0 := Nat.le_zero.mp (hsup ▸ tpC_le_supportC ps c)
  have hrec : recC ps c = 0 := by
    unfold recC
    rw [if_pos hsup]
  have hprec : precC ps c = 0 := by
    unfold precC
    split
    · rfl
    · rw [htp]
      simp
  simp only [f1C]
  rw [hprec, hrec]
  norm_num

theorem f1_score_le_two_thirds {ps : List (Nat × Nat)} {c : Nat}
    (h3 : (ps.map Prod.fst).toFinset.card = 3)
    (hc1 : c ∈ ps.map Prod.fst) (hc2 : c ∉ ps.map Prod.snd) :
    f1_score ps ≤ 2/3 := by
  have hcE : c ∈ (ps.map Prod.fst).toFinset := List.mem_toFinset.mpr hc1
  have hEcard : ((ps.map Prod.fst).toFinset.erase c).card = 2 := by
    rw [Finset.card_erase_of_mem hcE, h3]
  have hzero : ∀ x ∈ classLabels ps, x ∉ (ps.map Prod.fst).toFinset.erase c →
      f1C ps x = 0 := by
    intro x hx hxE
    by_cases hxc : x = c
    · subst hxc
      exact (metrics_zero_of_not_predicted hc2).2.2
    · by_cases hxf : x ∈ ps.map Prod.fst
      · exact absurd (Finset.mem_erase.mpr ⟨hxc, List.mem_toFinset.mpr hxf⟩) hxE
      · exact f1C_eq_zero_of_no_support hxf
  have hsum : ((classLabels ps).sum fun x => f1C ps x) ≤ 2 := by
    rw [← Finset.sum_filter_add_sum_filter_not (classLabels ps)
      (fun x => x ∈ (ps.map Prod.fst).toFinset.erase c)]
    have h2 : ((classLabels ps).filter
        (fun x => ¬ (x ∈ (ps.map Prod.fst).toFinset.erase c))).sum
          (fun x => f1C ps x) = 0 := by
      apply Finset.sum_eq_zero
      intro x hx
      obtain ⟨hxL, hxE⟩ := Finset.mem_filter.mp hx
      exact hzero x hxL hxE
    rw [h2, add_zero]
    calc ((classLabels ps).filter
          (fun x => x ∈ (ps.map Prod.fst).toFinset.erase c)).sum
            (fun x => f1C ps x)
        ≤ ((classLabels ps).filter
            (fun x => x ∈ (ps.map Prod.fst).toFinset.erase c)).card • (1 : ℚ) :=
          Finset.sum_le_card_nsmul _ _ _ (fun x _ => f1C_le_one ps x)
      _ = (((classLabels ps).filter
            (fun x => x ∈ (ps.map Prod.fst).toFinset.erase c)).card : ℚ) := by
          simp
      _ ≤ (((ps.map Prod.fst).toFinset.erase c).card : ℚ) := by
          have hss : ((classLabels ps).filter
              (fun x => x ∈ (ps.map Prod.fst).toFinset.erase c)) ⊆
              (ps.map Prod.fst).toFinset.erase c := by
            intro x hx
            exact (Finset.mem_filter.mp hx).2
          exact_mod_cast Finset.card_le_card hss
      _ = 2 := by
          rw [hEcard]
          norm_num
  have hK : 3 ≤ (classLabels ps).card := by
    have hsub : (ps.map Prod.fst).toFinset ⊆ classLabels ps := by
      unfold classLabels
      rw [List.toFinset_append]
      exact Finset.subset_union_left
    calc 3 = (ps.map Prod.fst).toFinset.card := h3.symm
      _ ≤ (classLabels ps).card := Finset.card_le_card hsub
  have hKq : (3 : ℚ) ≤ ((classLabels ps).card : ℚ) := by exact_mod_cast hK
  have hK0 : (0 : ℚ) < ((classLabels ps).card : ℚ) := by linarith
  unfold f1_score
  rw [div_le_div_iff₀ hK0 (by norm_num)]
  linarith [hsum]

/-- C3 (amended): every training evaluation reports macro-averaged
precision, recall and F1 (the unweighted mean of the per-class values over
the distinct observed classes) with zero-division cases scored as zero; in
particular, for a test partition with three distinct true classes (all of
nonzero support) where the model never predicts one class, that class
scores zero precision, recall and F1, macro-F1 is at most 2/3, and hence
macro-F1 is strictly less than accuracy whenever accuracy exceeds 2/3 —
though not in general. -/
theorem C3_macro_metrics (mt : String) (pre : ColumnTransformer)
    (est : Estimator) (ts : ℚ) (ps : List (Nat × Nat)) (c : Nat)
    (h3 : (ps.map Prod.fst).toFinset.card = 3)
    (hc1 : c ∈ ps.map Prod.fst) (hc2 : c ∉ ps.map Prod.snd) :
    ∃ pl r, train_and_evaluate mt pre est ts (.ok ps) = .ok (pl, r) ∧
      r.precision = precision_score ps ∧
      r.«recall» = recall_score ps ∧
      r.f1 = f1_score ps ∧
      r.accuracy = accuracy_score ps ∧
      precC ps c = 0 ∧ recC ps c = 0 ∧ f1C ps c = 0 ∧
      0 < supportC ps c ∧
      r.f1 ≤ 2/3 ∧
      (2/3 < r.accuracy → r.f1 < r.accuracy) := by
  obtain ⟨hp, hr, hf⟩ := metrics_zero_of_not_predicted hc2
  have hb := f1_score_le_two_thirds h3 hc1 hc2
  refine ⟨_, _, rfl, rfl, rfl, rfl, rfl, hp, hr, hf, supportC_pos hc1, hb, ?_⟩
  intro hacc
  exact lt_of_le_of_lt hb hacc

/-- C3 witness: the amended macro-metrics theorem at a concrete held-out
partition with classes {0, 1, 2} where class 2 is never predicted. -/
theorem C3_witness :
    ∃ pl r, train_and_evaluate "decision_tree" preEx .decision_tree 0
        (.ok psEx2) = .ok (pl, r) ∧
      r.precision = precision_score psEx2 ∧
      r.«recall» = recall_score psEx2 ∧
      r.f1 = f1_score psEx2 ∧
      r.accuracy = accuracy_score psEx2 ∧
      precC psEx2 2 = 0 ∧ recC psEx2 2 = 0 ∧ f1C psEx2 2 = 0 ∧
      0 < supportC psEx2 2 ∧
      r.f1 ≤ 2/3 ∧
      (2/3 < r.accuracy → r.f1 < r.accuracy) :=
  C3_macro_metrics "decision_tree" preEx .decision_tree 0 psEx2 2
    (by decide) (by decide) (by decide)

/-- C3 counterexample: a test partition with three classes of nonzero
support whose class 2 is never predicted, on which macro-F1 is not
strictly less than accuracy (both are zero), refuting the claimed strict
inequality. -/
theorem C3_counterexample :
    (psEx.map Prod.fst).toFinset.card = 3 ∧
    (∀ c ∈ psEx.map Prod.fst, 0 < supportC psEx c) ∧
    2 ∈ psEx.map Prod.fst ∧ 2 ∉ psEx.map Prod.snd ∧
    train_and_evaluate "decision_tree" preEx .decision_tree 0 (.ok psEx) =
      .ok ({ preprocess := preEx, clf := .decision_tree },
           evalResult "decision_tree" psEx 0) ∧
    (evalResult "decision_tree" psEx 0).f1 = f1_score psEx ∧
    (evalResult "decision_tree" psEx 0).accuracy = accuracy_score psEx ∧
    ¬ (f1_score psEx < accuracy_score psEx) := by
  refine ⟨by decide, by decide, by decide, by decide, rfl, rfl, rfl, ?_⟩
  have h1 : accuracy_score psEx = 0 := by
    simp [accuracy_score, psEx]
  have h2 : f1_score psEx = 0 := by
    simp [f1_score, classLabels, psEx, f1C, precC, recC, tpC, predictedC,
      supportC, Finset.sum_insert, List.countP, List.countP.go]
  rw [h1, h2]
  exact lt_irrefl 0

end MLBuilder
